import Mathlib

/-!
Verification of the anyflux registry/context core (src/crates/anyflux/src/context.rs).

The source is a per-type, thread-local store registry.  We shallowly embed it:

* A store type is identified by a natural-number key.  Its behaviour (the
  `Store` trait implementation) is a `StoreDef`: the sequence of
  `get_or_init` calls its `new()` performs, whether `new()` fails
  (panics) after those calls, the initial snapshot value it returns, and its
  `should_notify` comparison.
* The thread-local registry (`CONTEXTS: Mrc<AnyMap>`) together with the
  `Mrc<Rc<S>>` cells behind every `Context` form a `RegState`: an
  association list `reg` mapping a key to its entry (`none` = the pending
  placeholder `Mrc<Option<Context>>` holding `None`, `some cid` = a ready
  entry holding a `Context` whose cell is `cells[cid]`), the heap `cells` of
  shared mutable cells, and an instrumentation map `counts` recording how
  often each type's `new()` has been entered.
* `getOrInit` interprets `get_or_init::<S>()` with explicit fuel; `Res`
  records the outcome: the cell id of the returned `Context`, a propagated
  failure of some `new()`, the `expect("Context not initialized")` abort, or
  fuel exhaustion (the embedding of non-termination).
* `reduce` embeds `Context::reduce`, `reduceFutureNow` embeds
  `Context::reduce_future` specialised to a deferred computation that
  completes immediately (no suspension point is ever reached).
-/

namespace Anyflux

/-- Behaviour of one store type, i.e. one implementation of the `Store`
trait as exercised by `context.rs`: `new()` performs the `get_or_init`
calls in `calls` (in order), then either fails (`fails = true`, modelling a
panic propagating out of `new()`) or returns the snapshot `init`;
`notify a b` is `a.should_notify(&b)`. -/
structure StoreDef (V : Type) where
  calls : List Nat
  fails : Bool
  init : V
  notify : V → V → Bool

/-- Association-list lookup keyed by `Nat`. -/
def lookupA {α : Type} : List (Nat × α) → Nat → Option α
  | [], _ => none
  | (j, v) :: rest, k => if j = k then some v else lookupA rest k

/-- Association-list update-or-insert keyed by `Nat`. -/
def setA {α : Type} : List (Nat × α) → Nat → α → List (Nat × α)
  | [], k, v => [(k, v)]
  | (j, w) :: rest, k, v =>
    if j = k then (k, v) :: rest else (j, w) :: setA rest k v

/-- The state of one thread: the registry map (`reg`, entry `none` is the
pending placeholder, `some cid` is a ready `Context` over cell `cid`), the
heap of `Mrc<Rc<S>>` cells (`cells`), and the count of `new()` executions
per store type (`counts`). -/
structure RegState (V : Type) where
  reg : List (Nat × Option Nat)
  cells : List V
  counts : List (Nat × Nat)
deriving DecidableEq

/-- The registry of a fresh thread: no entries, no cells, no `new()` runs. -/
def RegState.empty {V : Type} : RegState V := ⟨[], [], []⟩

/-- Number of times `new()` of store type `k` has been entered. -/
def countOf {V : Type} (st : RegState V) (k : Nat) : Nat :=
  (lookupA st.counts k).getD 0

/-- The single map access of `get_or_init`:
`x.entry::<Mrc<Option<Context<S>>>>().or_insert_with(|| None.into()).clone()`.
Returns the entry's current value together with the state after the
insert-if-absent. -/
def probe {V : Type} (st : RegState V) (k : Nat) : Option Nat × RegState V :=
  match lookupA st.reg k with
  | some e => (e, st)
  | none => (none, { st with reg := setA st.reg k none })

/-- Record one entry into `S::new()` for store type `k`. -/
def bumpCount {V : Type} (k : Nat) (st : RegState V) : RegState V :=
  { st with counts := setA st.counts k (countOf st k + 1) }

/-- Outcome of a `get_or_init` interpretation. -/
inductive Res where
  | ok : Nat → Res
  | panicked : Res
  | notInit : Res
  | outOfFuel : Res
deriving DecidableEq

/-- True exactly on the `expect("Context not initialized")` abort. -/
def Res.isAbort : Res → Bool
  | Res.notInit => true
  | _ => false

/-- Run the nested `get_or_init` calls of a `new()` body in order,
stopping at (and propagating) the first outcome that is not a constructed
context. -/
def runCalls {V : Type} (go : Nat → RegState V → Res × RegState V) :
    List Nat → RegState V → Option Res × RegState V
  | [], st => (none, st)
  | c :: cs, st =>
    match go c st with
    | (Res.ok _, st') => runCalls go cs st'
    | (r, st') => (some r, st')

/-- The `!exists` branch of `get_or_init` followed by the final entry read:
run `S::new()` (its nested `get_or_init` calls via `go`, then its failure
check), allocate the `Context`'s cell, store `Some(context)` into the entry
(pending → ready, overwriting whatever the entry held), and finally read
`maybe_context.borrow().clone().expect("Context not initialized")`. -/
def construct {V : Type} (sd : StoreDef V)
    (go : Nat → RegState V → Res × RegState V) (k : Nat) (st2 : RegState V) :
    Res × RegState V :=
  match runCalls go sd.calls st2 with
  | (some r, st3) => (r, st3)
  | (none, st3) =>
    if sd.fails then (Res.panicked, st3)
    else
      let cid := st3.cells.length
      let st4 := { st3 with cells := st3.cells ++ [sd.init] }
      let st5 := { st4 with reg := setA st4.reg k (some cid) }
      match lookupA st5.reg k with
      | some (some c) => (Res.ok c, st5)
      | _ => (Res.notInit, st5)

/-- Interpreter for `get_or_init::<S>()` (context.rs, `pub(crate) fn
get_or_init`), with `fuel` bounding the depth of reentrant construction.
Steps mirror the source: a single map access obtaining (or inserting) the
entry (`probe`); the `let exists = maybe_context.borrow().is_some()` test;
if the entry already holds a context, the final read
`maybe_context.borrow().clone().expect("Context not initialized")`;
otherwise `S::new()` runs outside of any borrow (`bumpCount` marks its
entry, `construct` runs it and stores the result, then performs the same
final read). -/
def getOrInit {V : Type} (env : Nat → StoreDef V) :
    Nat → Nat → RegState V → Res × RegState V
  | 0, _, st => (Res.outOfFuel, st)
  | fuel + 1, k, st =>
    let p := probe st k
    if p.1.isSome then
      match lookupA p.2.reg k with
      | some (some cid) => (Res.ok cid, p.2)
      | _ => (Res.notInit, p.2)
    else construct (env k) (getOrInit env fuel) k (bumpCount k p.2)

/-- Read the current snapshot of the cell behind a `Context`
(`self.store.borrow()`). -/
def readCell {V : Type} [Inhabited V] (st : RegState V) (cid : Nat) : V :=
  st.cells.getD cid default

/-- `Context::reduce`: read the current snapshot (`old`), compute the new
snapshot by applying `f` to it, write it into the cell, and return
`self.store.borrow().should_notify(&old)` — the freshly written snapshot is
the receiver of `should_notify` and `old` is its argument. -/
def reduce {V : Type} [Inhabited V] (notify : V → V → Bool) (st : RegState V)
    (cid : Nat) (f : V → V) : RegState V × Bool :=
  let old := readCell st cid
  let st' := { st with cells := st.cells.set cid (f old) }
  (st', notify (readCell st' cid) old)

/-- `Context::reduce_future` (feature `future`) specialised to a deferred
computation that completes immediately, so that `.await` yields `f old`
without suspending; the borrow/write/compare sequence is transcribed from
the async body. -/
def reduceFutureNow {V : Type} [Inhabited V] (notify : V → V → Bool)
    (st : RegState V) (cid : Nat) (f : V → V) : RegState V × Bool :=
  let old := readCell st cid
  let st' := { st with cells := st.cells.set cid (f old) }
  (st', notify (readCell st' cid) old)

/-- Iterate `get_or_init::<S>()` `n` times sequentially on one thread,
keeping only the evolving registry state. -/
def callN {V : Type} (env : Nat → StoreDef V) (fuel k : Nat) :
    Nat → RegState V → RegState V
  | 0, st => st
  | n + 1, st => callN env fuel k n ((getOrInit env fuel k st).2)

/-- A registry entry that is absent or still the pending placeholder. -/
def notReady {V : Type} (st : RegState V) (k : Nat) : Prop :=
  lookupA st.reg k = none ∨ lookupA st.reg k = some none

/-- Well-formedness: every ready entry points at an allocated cell. -/
def WF {V : Type} (st : RegState V) : Prop :=
  ∀ j c, lookupA st.reg j = some (some c) → c < st.cells.length

/-- A `should_notify` given by structural inequality, as in the
`TestState` stores of the source's test module. -/
def neqN : Nat → Nat → Bool := fun a b => decide (a ≠ b)

/-- An asymmetric `should_notify`: the receiver is significant when it is
smaller than the argument. -/
def ltN : Nat → Nat → Bool := fun a b => decide (a < b)

/-- A store whose `new()` touches no other store (like `TestState`). -/
def envSolo : Nat → StoreDef Nat := fun _ => ⟨[], false, 42, neqN⟩

/-- Store 1 depends on store 0 at construction time (like `TestState2`
depending on `TestState` in the source's
`can_access_other_store_for_new_of_current_store` test). -/
def envDep : Nat → StoreDef Nat := fun k =>
  if k = 0 then ⟨[], false, 5, neqN⟩ else ⟨[0], false, 7, neqN⟩

/-- A cyclic cross-store dependency: store 0's `new()` requests store 1 and
store 1's `new()` requests store 0. -/
def envCyc : Nat → StoreDef Nat := fun k =>
  if k = 0 then ⟨[1], false, 0, neqN⟩ else ⟨[0], false, 0, neqN⟩

/-- Store 0's `new()` first requests store 1 (which constructs normally)
and then fails. -/
def envFail : Nat → StoreDef Nat := fun k =>
  if k = 0 then ⟨[1], true, 0, neqN⟩ else ⟨[], false, 7, neqN⟩

/-- A store whose `new()` fails immediately, touching no other store. -/
def envFailSolo : Nat → StoreDef Nat := fun _ => ⟨[], true, 0, neqN⟩

end Anyflux

namespace Anyflux

theorem lookupA_setA_self {α : Type} :
    ∀ (l : List (Nat × α)) (k : Nat) (v : α), lookupA (setA l k v) k = some v
  | [], k, v => by simp [setA, lookupA]
  | (j, w) :: rest, k, v => by
    by_cases h : j = k
    · simp [setA, lookupA, h]
    · simp [setA, lookupA, h, lookupA_setA_self rest k v]

theorem lookupA_setA_ne {α : Type} :
    ∀ (l : List (Nat × α)) (j k : Nat) (v : α), j ≠ k →
      lookupA (setA l k v) j = lookupA l j
  | [], j, k, v, h => by simp [setA, lookupA, Ne.symm h]
  | (i, w) :: rest, j, k, v, h => by
    by_cases hik : i = k
    · subst hik
      simp only [setA, if_pos rfl, lookupA, if_neg (Ne.symm h)]
    · simp only [setA, if_neg hik, lookupA]
      by_cases hij : i = j
      · simp [hij]
      · simp [hij, lookupA_setA_ne rest j k v h]

theorem getD_set_self {α : Type} :
    ∀ (l : List α) (i : Nat) (v d : α), i < l.length → (l.set i v).getD i d = v
  | [], _, _, _, h => absurd h (by simp)
  | _ :: _, 0, _, _, _ => rfl
  | _ :: l, i + 1, v, d, h => getD_set_self l i v d (Nat.lt_of_succ_lt_succ h)

theorem getOrInit_ready {V : Type} (env : Nat → StoreDef V) (fuel k : Nat)
    (st : RegState V) (c : Nat) (h : lookupA st.reg k = some (some c)) :
    getOrInit env (fuel + 1) k st = (Res.ok c, st) := by
  simp [getOrInit, probe, h]

theorem getOrInit_pending {V : Type} (env : Nat → StoreDef V) (fuel k : Nat)
    (st : RegState V) (h : lookupA st.reg k = some none) :
    getOrInit env (fuel + 1) k st =
      construct (env k) (getOrInit env fuel) k (bumpCount k st) := by
  simp [getOrInit, probe, h]

theorem getOrInit_absent {V : Type} (env : Nat → StoreDef V) (fuel k : Nat)
    (st : RegState V) (h : lookupA st.reg k = none) :
    getOrInit env (fuel + 1) k st =
      construct (env k) (getOrInit env fuel) k
        (bumpCount k { st with reg := setA st.reg k none }) := by
  simp [getOrInit, probe, h]

theorem construct_stop {V : Type} (sd : StoreDef V)
    (go : Nat → RegState V → Res × RegState V) (k : Nat) (st2 st3 : RegState V)
    (r : Res) (h : runCalls go sd.calls st2 = (some r, st3)) :
    construct sd go k st2 = (r, st3) := by
  simp [construct, h]

theorem construct_fail {V : Type} (sd : StoreDef V)
    (go : Nat → RegState V → Res × RegState V) (k : Nat) (st2 st3 : RegState V)
    (h : runCalls go sd.calls st2 = (none, st3)) (hf : sd.fails = true) :
    construct sd go k st2 = (Res.panicked, st3) := by
  simp [construct, h, hf]

theorem construct_done {V : Type} (sd : StoreDef V)
    (go : Nat → RegState V → Res × RegState V) (k : Nat) (st2 st3 : RegState V)
    (h : runCalls go sd.calls st2 = (none, st3)) (hf : sd.fails = false) :
    construct sd go k st2 =
      (Res.ok st3.cells.length,
        ⟨setA st3.reg k (some st3.cells.length), st3.cells ++ [sd.init],
          st3.counts⟩) := by
  simp [construct, h, hf, lookupA_setA_self]

theorem runCalls_cons_ok {V : Type} (go : Nat → RegState V → Res × RegState V)
    (a : Nat) (cs : List Nat) (st stm : RegState V) (d : Nat)
    (h : go a st = (Res.ok d, stm)) :
    runCalls go (a :: cs) st = runCalls go cs stm := by
  simp [runCalls, h]

theorem runCalls_cons_stop {V : Type} (go : Nat → RegState V → Res × RegState V)
    (a : Nat) (cs : List Nat) (st stm : RegState V) (r : Res)
    (h : go a st = (r, stm)) (hr : ∀ d, r ≠ Res.ok d) :
    runCalls go (a :: cs) st = (some r, stm) := by
  cases r with
  | ok d => exact absurd rfl (hr d)
  | panicked => simp [runCalls, h]
  | notInit => simp [runCalls, h]
  | outOfFuel => simp [runCalls, h]

end Anyflux

namespace Anyflux

theorem runCalls_ne_ok {V : Type} (go : Nat → RegState V → Res × RegState V) :
    ∀ (cs : List Nat) (st : RegState V) (d : Nat),
      (runCalls go cs st).1 = some (Res.ok d) → False
  | [], st, d, h => by simp [runCalls] at h
  | a :: cs, st, d, h => by
    rcases hg : go a st with ⟨r0, stm⟩
    cases r0 with
    | ok e =>
      rw [runCalls_cons_ok go a cs st stm e hg] at h
      exact runCalls_ne_ok go cs stm d h
    | panicked =>
      rw [runCalls_cons_stop go a cs st stm _ hg (fun e he => Res.noConfusion he)] at h
      simp at h
    | notInit =>
      rw [runCalls_cons_stop go a cs st stm _ hg (fun e he => Res.noConfusion he)] at h
      simp at h
    | outOfFuel =>
      rw [runCalls_cons_stop go a cs st stm _ hg (fun e he => Res.noConfusion he)] at h
      simp at h

theorem runCalls_abort {V : Type} (go : Nat → RegState V → Res × RegState V)
    (hgo : ∀ (a : Nat) (st : RegState V), ((go a st).1).isAbort = false) :
    ∀ (cs : List Nat) (st : RegState V) (r : Res),
      (runCalls go cs st).1 = some r → r.isAbort = false
  | [], st, r, h => by simp [runCalls] at h
  | a :: cs, st, r, h => by
    rcases hg : go a st with ⟨r0, stm⟩
    cases r0 with
    | ok e =>
      rw [runCalls_cons_ok go a cs st stm e hg] at h
      exact runCalls_abort go hgo cs stm r h
    | panicked =>
      rw [runCalls_cons_stop go a cs st stm _ hg (fun e he => Res.noConfusion he)] at h
      cases h; rfl
    | notInit =>
      rw [runCalls_cons_stop go a cs st stm _ hg (fun e he => Res.noConfusion he)] at h
      cases h
      have := hgo a st
      rw [hg] at this
      exact this
    | outOfFuel =>
      rw [runCalls_cons_stop go a cs st stm _ hg (fun e he => Res.noConfusion he)] at h
      cases h; rfl

theorem construct_abort {V : Type} (sd : StoreDef V)
    (go : Nat → RegState V → Res × RegState V)
    (hgo : ∀ (a : Nat) (st : RegState V), ((go a st).1).isAbort = false)
    (k : Nat) (st2 : RegState V) :
    ((construct sd go k st2).1).isAbort = false := by
  rcases hr : runCalls go sd.calls st2 with ⟨o, st3⟩
  cases o with
  | none =>
    cases hf : sd.fails with
    | true => rw [construct_fail sd go k st2 st3 hr hf]; rfl
    | false => rw [construct_done sd go k st2 st3 hr hf]; rfl
  | some r =>
    rw [construct_stop sd go k st2 st3 r hr]
    exact runCalls_abort go hgo sd.calls st2 r (by rw [hr])

theorem getOrInit_abort {V : Type} (env : Nat → StoreDef V) :
    ∀ (fuel k : Nat) (st : RegState V),
      ((getOrInit env fuel k st).1).isAbort = false := by
  intro fuel
  induction fuel with
  | zero => intro k st; rfl
  | succ n ih =>
    intro k st
    rcases hE : lookupA st.reg k with _ | e
    · rw [getOrInit_absent env n k st hE]
      exact construct_abort (env k) (getOrInit env n) ih k _
    · cases e with
      | none =>
        rw [getOrInit_pending env n k st hE]
        exact construct_abort (env k) (getOrInit env n) ih k _
      | some c =>
        rw [getOrInit_ready env n k st c hE]
        rfl

theorem countOf_probe {V : Type} (st : RegState V) (k j : Nat) :
    countOf (probe st k).2 j = countOf st j := by
  unfold probe
  cases lookupA st.reg k <;> rfl

theorem countOf_bump_self {V : Type} (st : RegState V) (k : Nat) :
    countOf (bumpCount k st) k = countOf st k + 1 := by
  simp [bumpCount, countOf, lookupA_setA_self]

theorem countOf_bump_ne {V : Type} (st : RegState V) (k j : Nat) (h : j ≠ k) :
    countOf (bumpCount k st) j = countOf st j := by
  simp [bumpCount, countOf, lookupA_setA_ne _ _ _ _ h]

theorem countOf_le_bump {V : Type} (st : RegState V) (k j : Nat) :
    countOf st j ≤ countOf (bumpCount k st) j := by
  by_cases h : j = k
  · subst h; rw [countOf_bump_self]; exact Nat.le_succ _
  · rw [countOf_bump_ne st k j h]

theorem countOf_le_runCalls {V : Type} (go : Nat → RegState V → Res × RegState V)
    (hgo : ∀ (a : Nat) (st : RegState V) (j : Nat),
      countOf st j ≤ countOf (go a st).2 j) :
    ∀ (cs : List Nat) (st : RegState V) (j : Nat),
      countOf st j ≤ countOf (runCalls go cs st).2 j
  | [], _, _ => le_refl _
  | a :: cs, st, j => by
    rcases hg : go a st with ⟨r0, stm⟩
    have h1 : countOf st j ≤ countOf stm j := by
      have h2 := hgo a st j
      rw [hg] at h2
      exact h2
    cases r0 with
    | ok e =>
      rw [runCalls_cons_ok go a cs st stm e hg]
      exact le_trans h1 (countOf_le_runCalls go hgo cs stm j)
    | panicked =>
      rw [runCalls_cons_stop go a cs st stm _ hg (fun e he => Res.noConfusion he)]
      exact h1
    | notInit =>
      rw [runCalls_cons_stop go a cs st stm _ hg (fun e he => Res.noConfusion he)]
      exact h1
    | outOfFuel =>
      rw [runCalls_cons_stop go a cs st stm _ hg (fun e he => Res.noConfusion he)]
      exact h1

theorem countOf_le_construct {V : Type} (sd : StoreDef V)
    (go : Nat → RegState V → Res × RegState V)
    (hgo : ∀ (a : Nat) (st : RegState V) (j : Nat),
      countOf st j ≤ countOf (go a st).2 j)
    (k : Nat) (st2 : RegState V) (j : Nat) :
    countOf st2 j ≤ countOf (construct sd go k st2).2 j := by
  rcases hr : runCalls go sd.calls st2 with ⟨o, st3⟩
  have hrc : countOf st2 j ≤ countOf st3 j := by
    have h2 := countOf_le_runCalls go hgo sd.calls st2 j
    rw [hr] at h2
    exact h2
  cases o with
  | none =>
    cases hf : sd.fails with
    | true => rw [construct_fail sd go k st2 st3 hr hf]; exact hrc
    | false => rw [construct_done sd go k st2 st3 hr hf]; exact hrc
  | some r => rw [construct_stop sd go k st2 st3 r hr]; exact hrc

theorem countOf_le_getOrInit {V : Type} (env : Nat → StoreDef V) :
    ∀ (fuel k : Nat) (st : RegState V) (j : Nat),
      countOf st j ≤ countOf (getOrInit env fuel k st).2 j := by
  intro fuel
  induction fuel with
  | zero => intro k st j; exact le_refl _
  | succ n ih =>
    intro k st j
    rcases hE : lookupA st.reg k with _ | e
    · rw [getOrInit_absent env n k st hE]
      exact le_trans
        (countOf_le_bump { st with reg := setA st.reg k none } k j)
        (countOf_le_construct (env k) (getOrInit env n) (fun a s i => ih a s i) k _ j)
    · cases e with
      | none =>
        rw [getOrInit_pending env n k st hE]
        exact le_trans (countOf_le_bump st k j)
          (countOf_le_construct (env k) (getOrInit env n) (fun a s i => ih a s i) k _ j)
      | some c =>
        rw [getOrInit_ready env n k st c hE]

end Anyflux

namespace Anyflux

theorem WF_setPending {V : Type} (st : RegState V) (k : Nat) (hw : WF st) :
    WF { st with reg := setA st.reg k none } := by
  intro j c hj
  by_cases hjk : j = k
  · subst hjk
    rw [lookupA_setA_self] at hj
    simp at hj
  · rw [lookupA_setA_ne st.reg j k none hjk] at hj
    exact hw j c hj

theorem WF_runCalls {V : Type} (go : Nat → RegState V → Res × RegState V)
    (hgo : ∀ (a : Nat) (st : RegState V), WF st → WF (go a st).2) :
    ∀ (cs : List Nat) (st : RegState V), WF st → WF (runCalls go cs st).2
  | [], _, hw => hw
  | a :: cs, st, hw => by
    rcases hg : go a st with ⟨r0, stm⟩
    have h1 : WF stm := by
      have h2 := hgo a st hw
      rw [hg] at h2
      exact h2
    cases r0 with
    | ok e =>
      rw [runCalls_cons_ok go a cs st stm e hg]
      exact WF_runCalls go hgo cs stm h1
    | panicked =>
      rw [runCalls_cons_stop go a cs st stm _ hg (fun e he => Res.noConfusion he)]
      exact h1
    | notInit =>
      rw [runCalls_cons_stop go a cs st stm _ hg (fun e he => Res.noConfusion he)]
      exact h1
    | outOfFuel =>
      rw [runCalls_cons_stop go a cs st stm _ hg (fun e he => Res.noConfusion he)]
      exact h1

theorem WF_construct {V : Type} (sd : StoreDef V)
    (go : Nat → RegState V → Res × RegState V)
    (hgo : ∀ (a : Nat) (st : RegState V), WF st → WF (go a st).2)
    (k : Nat) (st2 : RegState V) (hw : WF st2) :
    WF (construct sd go k st2).2 := by
  rcases hr : runCalls go sd.calls st2 with ⟨o, st3⟩
  have hw3 : WF st3 := by
    have h2 := WF_runCalls go hgo sd.calls st2 hw
    rw [hr] at h2
    exact h2
  cases o with
  | some r =>
    rw [construct_stop sd go k st2 st3 r hr]
    exact hw3
  | none =>
    cases hf : sd.fails with
    | true =>
      rw [construct_fail sd go k st2 st3 hr hf]
      exact hw3
    | false =>
      rw [construct_done sd go k st2 st3 hr hf]
      intro j c hj
      by_cases hjk : j = k
      · subst hjk
        rw [lookupA_setA_self] at hj
        simp only [Option.some.injEq] at hj
        subst hj
        simp [List.length_append]
      · rw [lookupA_setA_ne st3.reg j k _ hjk] at hj
        have := hw3 j c hj
        simp only [List.length_append, List.length_cons, List.length_nil]
        omega

theorem WF_getOrInit {V : Type} (env : Nat → StoreDef V) :
    ∀ (fuel k : Nat) (st : RegState V), WF st → WF (getOrInit env fuel k st).2 := by
  intro fuel
  induction fuel with
  | zero => intro k st hw; exact hw
  | succ n ih =>
    intro k st hw
    rcases hE : lookupA st.reg k with _ | e
    · rw [getOrInit_absent env n k st hE]
      exact WF_construct (env k) (getOrInit env n) ih k _ (WF_setPending st k hw)
    · cases e with
      | none =>
        rw [getOrInit_pending env n k st hE]
        exact WF_construct (env k) (getOrInit env n) ih k _ hw
      | some c =>
        rw [getOrInit_ready env n k st c hE]
        exact hw

theorem construct_ok_ready {V : Type} (sd : StoreDef V)
    (go : Nat → RegState V → Res × RegState V) (k : Nat) (st2 : RegState V)
    (c : Nat) (st' : RegState V) (h : construct sd go k st2 = (Res.ok c, st')) :
    lookupA st'.reg k = some (some c) := by
  rcases hr : runCalls go sd.calls st2 with ⟨o, st3⟩
  cases o with
  | some r =>
    rw [construct_stop sd go k st2 st3 r hr] at h
    injection h with h1 h2
    subst h1
    exact absurd (by rw [hr]) (fun hh => runCalls_ne_ok go sd.calls st2 c hh)
  | none =>
    cases hf : sd.fails with
    | true =>
      rw [construct_fail sd go k st2 st3 hr hf] at h
      injection h with h1 h2
      exact Res.noConfusion h1
    | false =>
      rw [construct_done sd go k st2 st3 hr hf] at h
      injection h with h1 h2
      injection h1 with h1
      subst h1
      subst h2
      exact lookupA_setA_self st3.reg k (some st3.cells.length)

theorem getOrInit_ok_ready {V : Type} (env : Nat → StoreDef V) (fuel k : Nat)
    (st : RegState V) (c : Nat) (st' : RegState V)
    (h : getOrInit env fuel k st = (Res.ok c, st')) :
    lookupA st'.reg k = some (some c) := by
  cases fuel with
  | zero =>
    simp [getOrInit] at h
  | succ n =>
    rcases hE : lookupA st.reg k with _ | e
    · rw [getOrInit_absent env n k st hE] at h
      exact construct_ok_ready (env k) (getOrInit env n) k _ c st' h
    · cases e with
      | none =>
        rw [getOrInit_pending env n k st hE] at h
        exact construct_ok_ready (env k) (getOrInit env n) k _ c st' h
      | some d =>
        rw [getOrInit_ready env n k st d hE] at h
        injection h with h1 h2
        injection h1 with h1
        subst h1
        subst h2
        exact hE

theorem callN_ready {V : Type} (env : Nat → StoreDef V) (fuel k c : Nat) :
    ∀ (n : Nat) (st : RegState V), lookupA st.reg k = some (some c) →
      callN env (fuel + 1) k n st = st
  | 0, _, _ => rfl
  | n + 1, st, h => by
    rw [callN, getOrInit_ready env fuel k st c h]
    exact callN_ready env fuel k c n st h

theorem cyc_step {V : Type} (env : Nat → StoreDef V) (n : Nat) (x y : Nat)
    (hxy : x ≠ y) (hcx : (env x).calls = [y])
    (ihy : ∀ st' : RegState V, notReady st' x → notReady st' y →
      (getOrInit env n y st').1 = Res.outOfFuel) :
    ∀ st : RegState V, notReady st x → notReady st y →
      (getOrInit env (n + 1) x st).1 = Res.outOfFuel := by
  intro st hx hy
  have key : ∀ st2 : RegState V, notReady st2 x → notReady st2 y →
      (construct (env x) (getOrInit env n) x st2).1 = Res.outOfFuel := by
    intro st2 h2x h2y
    rcases hg : getOrInit env n y st2 with ⟨r, stm⟩
    have hro : r = Res.outOfFuel := by
      have h3 := ihy st2 h2x h2y
      rw [hg] at h3
      exact h3
    subst hro
    have hrun : runCalls (getOrInit env n) (env x).calls st2 =
        (some Res.outOfFuel, stm) := by
      rw [hcx]
      exact runCalls_cons_stop (getOrInit env n) y [] st2 stm _ hg
        (fun d hd => Res.noConfusion hd)
    rw [construct_stop (env x) (getOrInit env n) x st2 stm Res.outOfFuel hrun]
  rcases hx with hA | hP
  · rw [getOrInit_absent env n x st hA]
    refine key _ (Or.inr (lookupA_setA_self st.reg x none)) ?_
    have heq : lookupA (setA st.reg x none) y = lookupA st.reg y :=
      lookupA_setA_ne st.reg y x none (Ne.symm hxy)
    rcases hy with h1 | h1
    · exact Or.inl (heq.trans h1)
    · exact Or.inr (heq.trans h1)
  · rw [getOrInit_pending env n x st hP]
    exact key _ (Or.inr hP) hy

theorem cyc_outOfFuel {V : Type} (env : Nat → StoreDef V) (s t : Nat)
    (hst : s ≠ t) (hcs : (env s).calls = [t]) (hct : (env t).calls = [s]) :
    ∀ (fuel : Nat) (st : RegState V),
      (notReady st s → notReady st t →
        (getOrInit env fuel s st).1 = Res.outOfFuel) ∧
      (notReady st s → notReady st t →
        (getOrInit env fuel t st).1 = Res.outOfFuel) := by
  intro fuel
  induction fuel with
  | zero => intro st; exact ⟨fun _ _ => rfl, fun _ _ => rfl⟩
  | succ n ih =>
    intro st
    constructor
    · exact fun hs ht =>
        cyc_step env n s t hst hcs
          (fun st' h1 h2 => (ih st').2 h1 h2) st hs ht
    · exact fun hs ht =>
        cyc_step env n t s (Ne.symm hst) hct
          (fun st' h1 h2 => (ih st').1 h2 h1) st ht hs

end Anyflux

namespace Anyflux

theorem countOf_bump_get {V : Type} (env : Nat → StoreDef V) (n k : Nat)
    (st : RegState V) (h : notReady st k) :
    countOf st k + 1 ≤ countOf (getOrInit env (n + 1) k st).2 k := by
  rcases h with hA | hP
  · rw [getOrInit_absent env n k st hA]
    have h2 := countOf_le_construct (env k) (getOrInit env n)
      (fun a u i => countOf_le_getOrInit env n a u i) k
      (bumpCount k { st with reg := setA st.reg k none }) k
    rw [countOf_bump_self ({ st with reg := setA st.reg k none }) k] at h2
    exact h2
  · rw [getOrInit_pending env n k st hP]
    have h2 := countOf_le_construct (env k) (getOrInit env n)
      (fun a u i => countOf_le_getOrInit env n a u i) k (bumpCount k st) k
    rw [countOf_bump_self st k] at h2
    exact h2

/-- C1 counterexample: a store whose `should_notify` is asymmetric
(`self.should_notify(other) = self < other`), starting snapshot `0`,
transform returning `1`.  `reduce` returns `false` (it evaluates
`new.should_notify(&old)`, i.e. `1 < 0`), while the claimed
`old.should_notify(&new)` would be `0 < 1 = true`. -/
theorem C1_counterexample :
    (reduce ltN (⟨[], [0], []⟩ : RegState Nat) 0 (fun _ => 1)).2 = false ∧
    ltN 0 1 = true := by
  decide

/-- C1 (amended): `Context::reduce(f)` returns `new.should_notify(&old)` —
`should_notify` is invoked with the post-transition snapshot as the
receiver (`self`) and the pre-transition snapshot as the argument, the
reverse of the claimed orientation. -/
theorem C1_reduce_notify_order {V : Type} [Inhabited V]
    (notify : V → V → Bool) (st : RegState V) (cid : Nat) (f : V → V)
    (h : cid < st.cells.length) :
    (reduce notify st cid f).2 =
      notify (f (readCell st cid)) (readCell st cid) := by
  simp only [reduce, readCell]
  rw [getD_set_self st.cells cid (f (st.cells.getD cid default)) default h]

theorem C1_reduce_notify_order_witness :
    0 < (((⟨[], [5], []⟩ : RegState Nat)).cells).length ∧
    (reduce ltN (⟨[], [5], []⟩ : RegState Nat) 0 (fun v => v + 1)).2 = ltN 6 5 :=
  ⟨by decide,
    C1_reduce_notify_order ltN (⟨[], [5], []⟩ : RegState Nat) 0
      (fun v => v + 1) (by decide)⟩

/-- C6: `reduce` applies `f` to the snapshot that was current immediately
before the call, and afterwards the cell's current snapshot is exactly
`f` of that pre-transition snapshot. -/
theorem C6_reduce_applies_f_to_old {V : Type} [Inhabited V]
    (notify : V → V → Bool) (st : RegState V) (cid : Nat) (f : V → V)
    (h : cid < st.cells.length) :
    readCell ((reduce notify st cid f).1) cid = f (readCell st cid) := by
  simp only [reduce, readCell]
  exact getD_set_self st.cells cid (f (st.cells.getD cid default)) default h

theorem C6_reduce_applies_f_to_old_witness :
    0 < (((⟨[], [3], []⟩ : RegState Nat)).cells).length ∧
    readCell ((reduce neqN (⟨[], [3], []⟩ : RegState Nat) 0 (fun v => v * 2)).1) 0 =
      (fun v => v * 2) (readCell (⟨[], [3], []⟩ : RegState Nat) 0) :=
  ⟨by decide,
    C6_reduce_applies_f_to_old neqN (⟨[], [3], []⟩ : RegState Nat) 0
      (fun v => v * 2) (by decide)⟩

/-- C7: for a store whose `should_notify` is structural inequality, the
identity transform makes `reduce` return `false`, and a transform
returning a value distinct from the current snapshot makes it return
`true`. -/
theorem C7_notification_fidelity {V : Type} [DecidableEq V] [Inhabited V]
    (st : RegState V) (cid : Nat) (v : V) (h : cid < st.cells.length)
    (hv : v ≠ readCell st cid) :
    (reduce (fun a b => decide (a ≠ b)) st cid (fun s => s)).2 = false ∧
    (reduce (fun a b => decide (a ≠ b)) st cid (fun _ => v)).2 = true := by
  constructor
  · simp only [reduce, readCell]
    have hx : (st.cells.set cid (st.cells.getD cid default)).getD cid default =
        st.cells.getD cid default :=
      getD_set_self st.cells cid (st.cells.getD cid default) default h
    simp only [hx]
    simp
  · simp only [reduce, readCell]
    have hx : (st.cells.set cid v).getD cid default = v :=
      getD_set_self st.cells cid v default h
    simp only [hx, decide_eq_true_eq]
    exact hv

theorem C7_notification_fidelity_witness :
    0 < (((⟨[], [4], []⟩ : RegState Nat)).cells).length ∧
    (9 : Nat) ≠ readCell (⟨[], [4], []⟩ : RegState Nat) 0 ∧
    ((reduce (fun a b : Nat => decide (a ≠ b)) (⟨[], [4], []⟩ : RegState Nat) 0
        (fun s => s)).2 = false ∧
      (reduce (fun a b : Nat => decide (a ≠ b)) (⟨[], [4], []⟩ : RegState Nat) 0
        (fun _ => 9)).2 = true) :=
  ⟨by decide, by decide,
    C7_notification_fidelity (⟨[], [4], []⟩ : RegState Nat) 0 9 (by decide)
      (by decide)⟩

/-- C10: when the deferred computation completes immediately (no suspension
point is reached), `reduce_future` performs exactly the read/write/compare
sequence of the synchronous `reduce`: same returned boolean, same final
cell contents. -/
theorem C10_reduce_future_immediate_equiv {V : Type} [Inhabited V]
    (notify : V → V → Bool) (st : RegState V) (cid : Nat) (f : V → V) :
    reduceFutureNow notify st cid f = reduce notify st cid f := rfl

/-- C8: the `expect("Context not initialized")` abort branch of
`get_or_init` is unreachable — no interpretation of `get_or_init`, from any
state, with any store environment and any fuel, ever produces the
`notInit` outcome. -/
theorem C8_not_initialized_unreachable {V : Type} (env : Nat → StoreDef V)
    (fuel k : Nat) (st : RegState V) :
    ((getOrInit env fuel k st).1).isAbort = false :=
  getOrInit_abort env fuel k st

/-- C2 counterexample: stores 0 and 1 whose `new()`s request each other
(`envCyc`).  Within a single `get_or_init::<0>()` call (fuel 5) store 0's
`new()` is entered three times — the pending marker does not stop the inner
construction attempt from re-entering `new()`. -/
theorem C2_counterexample :
    countOf (getOrInit envCyc 5 0 (RegState.empty : RegState Nat)).2 0 = 3 := by
  decide

/-- C2 (amended): for distinct store types `S` and `T` whose `new()`s
request each other, `get_or_init::<S>()` does NOT call `S::new()` at most
once: the `is_some` test treats the pending entry like an absent one, so
the inner attempt re-enters `S::new()` (at least twice within any run of
fuel ≥ 5) and construction never completes (every fuel bound is
exhausted). -/
theorem C2_cyclic_reentry {V : Type} (env : Nat → StoreDef V) (s t : Nat)
    (hst : s ≠ t) (hcs : (env s).calls = [t]) (hct : (env t).calls = [s]) :
    (∀ fuel : Nat,
      (getOrInit env fuel s (RegState.empty : RegState V)).1 = Res.outOfFuel) ∧
    (∀ fuel : Nat,
      2 ≤ countOf (getOrInit env (fuel + 5) s (RegState.empty : RegState V)).2 s) := by
  have hcyc := cyc_outOfFuel env s t hst hcs hct
  constructor
  · intro fuel
    exact (hcyc fuel RegState.empty).1 (Or.inl rfl) (Or.inl rfl)
  · intro fuel
    have e1 : getOrInit env (fuel + 5) s (RegState.empty : RegState V) =
        construct (env s) (getOrInit env (fuel + 4)) s
          (⟨[(s, none)], [], [(s, 1)]⟩ : RegState V) :=
      getOrInit_absent env (fuel + 4) s RegState.empty rfl
    have hSt1s : lookupA ([(s, (none : Option Nat))]) s = some none := by
      simp [lookupA]
    have hSt1t : lookupA ([(s, (none : Option Nat))]) t = none := by
      simp [lookupA, hst]
    set St2 : RegState V :=
      bumpCount t ⟨setA [(s, none)] t none, [], [(s, 1)]⟩ with hSt2def
    have e2 : getOrInit env (fuel + 4) t (⟨[(s, none)], [], [(s, 1)]⟩ : RegState V) =
        construct (env t) (getOrInit env (fuel + 3)) t St2 :=
      getOrInit_absent env (fuel + 3) t _ hSt1t
    have hSt2s : lookupA St2.reg s = some none := by
      rw [hSt2def]
      show lookupA (setA [(s, none)] t none) s = some none
      rw [lookupA_setA_ne [(s, none)] s t none hst]
      exact hSt1s
    have hSt2t : lookupA St2.reg t = some none := by
      rw [hSt2def]
      exact lookupA_setA_self [(s, none)] t none
    have hSt2cnt : countOf St2 s = 1 := by
      rw [hSt2def]
      rw [countOf_bump_ne _ t s hst]
      simp [countOf, lookupA]
    rcases hg3 : getOrInit env (fuel + 3) s St2 with ⟨r3, stm⟩
    have hr3 : r3 = Res.outOfFuel := by
      have h3 := (hcyc (fuel + 3) St2).1 (Or.inr hSt2s) (Or.inr hSt2t)
      rw [hg3] at h3
      exact h3
    subst hr3
    have hcnt3 : 2 ≤ countOf stm s := by
      have h4 : countOf St2 s + 1 ≤
          countOf (getOrInit env (fuel + 3) s St2).2 s :=
        countOf_bump_get env (fuel + 2) s St2 (Or.inr hSt2s)
      rw [hg3, hSt2cnt] at h4
      exact h4
    have hrun2 : runCalls (getOrInit env (fuel + 3)) (env t).calls St2 =
        (some Res.outOfFuel, stm) := by
      rw [hct]
      exact runCalls_cons_stop (getOrInit env (fuel + 3)) s [] St2 stm _ hg3
        (fun d hd => Res.noConfusion hd)
    have e4 : getOrInit env (fuel + 4) t (⟨[(s, none)], [], [(s, 1)]⟩ : RegState V) =
        (Res.outOfFuel, stm) :=
      e2.trans (construct_stop _ _ _ _ _ _ hrun2)
    have hrun1 : runCalls (getOrInit env (fuel + 4)) (env s).calls
        (⟨[(s, none)], [], [(s, 1)]⟩ : RegState V) = (some Res.outOfFuel, stm) := by
      rw [hcs]
      exact runCalls_cons_stop (getOrInit env (fuel + 4)) t []
        (⟨[(s, none)], [], [(s, 1)]⟩ : RegState V) stm _ e4
        (fun d hd => Res.noConfusion hd)
    rw [e1, construct_stop _ _ _ _ _ _ hrun1]
    exact hcnt3

theorem C2_cyclic_reentry_witness :
    (getOrInit envCyc 7 0 (RegState.empty : RegState Nat)).1 = Res.outOfFuel ∧
    2 ≤ countOf (getOrInit envCyc (2 + 5) 0 (RegState.empty : RegState Nat)).2 0 :=
  ⟨(C2_cyclic_reentry envCyc 0 1 (by decide) rfl rfl).1 7,
    (C2_cyclic_reentry envCyc 0 1 (by decide) rfl rfl).2 2⟩

end Anyflux

namespace Anyflux

/-- C3: for a store whose `new()` succeeds without reaching back into the
same store (hypotheses: the nested calls of its `new()` all succeed and
leave its own execution count at the single increment of the first call,
and `new()` does not fail), any number `n ≥ 1` of sequential
`get_or_init` calls on one thread runs `new()` exactly once: the first
call constructs, every later call finds the ready entry and constructs
nothing. -/
theorem C3_single_construction {V : Type} (env : Nat → StoreDef V)
    (k fuel n : Nat) (st3 : RegState V) (hn : 1 ≤ n)
    (hf : (env k).fails = false)
    (hrun : runCalls (getOrInit env fuel) (env k).calls
      (⟨[(k, none)], [], [(k, 1)]⟩ : RegState V) = (none, st3))
    (hcnt : countOf st3 k = 1) :
    countOf (callN env (fuel + 1) k n (RegState.empty : RegState V)) k = 1 := by
  have e1 : getOrInit env (fuel + 1) k (RegState.empty : RegState V) =
      (Res.ok st3.cells.length,
        ⟨setA st3.reg k (some st3.cells.length), st3.cells ++ [(env k).init],
          st3.counts⟩) := by
    rw [getOrInit_absent env fuel k RegState.empty rfl]
    exact construct_done (env k) (getOrInit env fuel) k _ st3 hrun hf
  obtain ⟨m, rfl⟩ : ∃ m, n = m + 1 := ⟨n - 1, by omega⟩
  have e2 : callN env (fuel + 1) k m
      (⟨setA st3.reg k (some st3.cells.length), st3.cells ++ [(env k).init],
        st3.counts⟩ : RegState V) =
      ⟨setA st3.reg k (some st3.cells.length), st3.cells ++ [(env k).init],
        st3.counts⟩ :=
    callN_ready env fuel k st3.cells.length m _ (lookupA_setA_self st3.reg k _)
  have e3 : callN env (fuel + 1) k (m + 1) (RegState.empty : RegState V) =
      ⟨setA st3.reg k (some st3.cells.length), st3.cells ++ [(env k).init],
        st3.counts⟩ := by
    rw [callN, e1]
    exact e2
  rw [e3]
  exact hcnt

theorem C3_single_construction_witness :
    runCalls (getOrInit envSolo 0) (envSolo 0).calls
      (⟨[(0, none)], [], [(0, 1)]⟩ : RegState Nat) =
      (none, ⟨[(0, none)], [], [(0, 1)]⟩) ∧
    countOf (callN envSolo 1 0 2 (RegState.empty : RegState Nat)) 0 = 1 :=
  ⟨rfl,
    C3_single_construction envSolo 0 0 2 (⟨[(0, none)], [], [(0, 1)]⟩ : RegState Nat)
      (by decide) rfl rfl rfl⟩

/-- C4: for distinct stores `A` and `B` where `B::new()` requests `A` and
`A::new()` performs no registry calls, `get_or_init::<B>()` from a fresh
thread completes normally (a constructed context is returned — no abort,
no failure, no exhaustion) and constructs each of `A` and `B` exactly
once, even though `A` was never requested directly. -/
theorem C4_reentrant_cross_store {V : Type} (env : Nat → StoreDef V)
    (a b fuel : Nat) (hab : a ≠ b)
    (ha : (env a).calls = []) (haf : (env a).fails = false)
    (hb : (env b).calls = [a]) (hbf : (env b).fails = false) :
    (getOrInit env (fuel + 2) b (RegState.empty : RegState V)).1 = Res.ok 1 ∧
    countOf (getOrInit env (fuel + 2) b (RegState.empty : RegState V)).2 a = 1 ∧
    countOf (getOrInit env (fuel + 2) b (RegState.empty : RegState V)).2 b = 1 := by
  have e1 : getOrInit env (fuel + 2) b (RegState.empty : RegState V) =
      construct (env b) (getOrInit env (fuel + 1)) b
        (⟨[(b, none)], [], [(b, 1)]⟩ : RegState V) :=
    getOrInit_absent env (fuel + 1) b RegState.empty rfl
  have hL : lookupA ([(b, (none : Option Nat))]) a = none := by
    simp [lookupA, Ne.symm hab]
  set St2 : RegState V :=
    bumpCount a ⟨setA [(b, none)] a none, [], [(b, 1)]⟩ with hSt2def
  have e2 : getOrInit env (fuel + 1) a (⟨[(b, none)], [], [(b, 1)]⟩ : RegState V) =
      construct (env a) (getOrInit env fuel) a St2 :=
    getOrInit_absent env fuel a _ hL
  have hrunA : runCalls (getOrInit env fuel) (env a).calls St2 = (none, St2) := by
    rw [ha]
    rfl
  have e3 : construct (env a) (getOrInit env fuel) a St2 =
      (Res.ok St2.cells.length,
        ⟨setA St2.reg a (some St2.cells.length), St2.cells ++ [(env a).init],
          St2.counts⟩) :=
    construct_done (env a) (getOrInit env fuel) a St2 St2 hrunA haf
  set St3 : RegState V :=
    ⟨setA St2.reg a (some St2.cells.length), St2.cells ++ [(env a).init],
      St2.counts⟩ with hSt3def
  have hrunB : runCalls (getOrInit env (fuel + 1)) (env b).calls
      (⟨[(b, none)], [], [(b, 1)]⟩ : RegState V) = (none, St3) := by
    rw [hb]
    rw [runCalls_cons_ok (getOrInit env (fuel + 1)) a []
      (⟨[(b, none)], [], [(b, 1)]⟩ : RegState V) St3 St2.cells.length
      (e2.trans e3)]
    rfl
  have eF : construct (env b) (getOrInit env (fuel + 1)) b
      (⟨[(b, none)], [], [(b, 1)]⟩ : RegState V) =
      (Res.ok St3.cells.length,
        ⟨setA St3.reg b (some St3.cells.length), St3.cells ++ [(env b).init],
          St3.counts⟩) :=
    construct_done (env b) (getOrInit env (fuel + 1)) b _ St3 hrunB hbf
  have hR := e1.trans eF
  refine ⟨?_, ?_, ?_⟩
  · rw [hR]
    rfl
  · rw [hR]
    show countOf St2 a = 1
    rw [hSt2def, countOf_bump_self]
    simp [countOf, lookupA, Ne.symm hab]
  · rw [hR]
    show countOf St2 b = 1
    rw [hSt2def, countOf_bump_ne _ a b (Ne.symm hab)]
    simp [countOf, lookupA]

theorem C4_reentrant_cross_store_witness :
    (getOrInit envDep 2 1 (RegState.empty : RegState Nat)).1 = Res.ok 1 ∧
    countOf (getOrInit envDep 2 1 (RegState.empty : RegState Nat)).2 0 = 1 ∧
    countOf (getOrInit envDep 2 1 (RegState.empty : RegState Nat)).2 1 = 1 :=
  C4_reentrant_cross_store envDep 0 1 0 (by decide) rfl rfl rfl rfl

/-- C5: once a `get_or_init::<S>()` call has returned the context over
cell `c1` in state `st1`, every further call for `S` returns the very same
cell and leaves the registry untouched — there is one logical store
instance per thread — and a `reduce` performed through this shared cell
updates the snapshot that all handles to it observe. -/
theorem C5_shared_identity {V : Type} [Inhabited V] (env : Nat → StoreDef V)
    (fuel k : Nat) (st st1 : RegState V) (c1 : Nat) (hw : WF st)
    (h1 : getOrInit env fuel k st = (Res.ok c1, st1)) :
    (∀ m : Nat, getOrInit env (m + 1) k st1 = (Res.ok c1, st1)) ∧
    (∀ (notify : V → V → Bool) (f : V → V),
      readCell ((reduce notify st1 c1 f).1) c1 = f (readCell st1 c1)) := by
  have hready : lookupA st1.reg k = some (some c1) :=
    getOrInit_ok_ready env fuel k st c1 st1 h1
  constructor
  · intro m
    exact getOrInit_ready env m k st1 c1 hready
  · intro notify f
    have hw1 : WF st1 := by
      have h2 := WF_getOrInit env fuel k st hw
      rw [h1] at h2
      exact h2
    have hc : c1 < st1.cells.length := hw1 k c1 hready
    simp only [reduce, readCell]
    exact getD_set_self st1.cells c1 (f (st1.cells.getD c1 default)) default hc

theorem C5_shared_identity_witness :
    getOrInit envSolo 1 0 (⟨[(0, some 0)], [42], [(0, 1)]⟩ : RegState Nat) =
      (Res.ok 0, ⟨[(0, some 0)], [42], [(0, 1)]⟩) ∧
    readCell ((reduce neqN (⟨[(0, some 0)], [42], [(0, 1)]⟩ : RegState Nat) 0
        (fun v => v + 1)).1) 0 =
      (fun v => v + 1)
        (readCell (⟨[(0, some 0)], [42], [(0, 1)]⟩ : RegState Nat) 0) :=
  ⟨(C5_shared_identity envSolo 1 0 RegState.empty
      (⟨[(0, some 0)], [42], [(0, 1)]⟩ : RegState Nat) 0
      (fun j c hc => by simp [RegState.empty, lookupA] at hc) rfl).1 0,
    (C5_shared_identity envSolo 1 0 RegState.empty
      (⟨[(0, some 0)], [42], [(0, 1)]⟩ : RegState Nat) 0
      (fun j c hc => by simp [RegState.empty, lookupA] at hc) rfl).2 neqN
      (fun v => v + 1)⟩

/-- C9 counterexample: store 0's `new()` first constructs store 1 and then
fails (`envFail`).  The failure propagates and store 0's entry stays
pending, but the rest of the registry is NOT unchanged: store 1's entry,
absent before the call, is now ready — a context was stored for it. -/
theorem C9_counterexample :
    lookupA (RegState.empty : RegState Nat).reg 1 = none ∧
    (getOrInit envFail 3 0 (RegState.empty : RegState Nat)).1 = Res.panicked ∧
    lookupA (getOrInit envFail 3 0 (RegState.empty : RegState Nat)).2.reg 0 =
      some none ∧
    lookupA (getOrInit envFail 3 0 (RegState.empty : RegState Nat)).2.reg 1 =
      some (some 0) := by
  decide

/-- C9 (amended): if `S::new()` fails, the failure propagates out of
`get_or_init::<S>()` with no context stored for `S`: its entry is exactly
as the nested calls inside `new()` left it — pending, provided those calls
did not themselves construct `S` — and `get_or_init` itself adds nothing
beyond the effects of those nested calls (entries they created persist);
a subsequent `get_or_init::<S>()` then attempts construction again,
entering `S::new()` anew. -/
theorem C9_failed_new_retries {V : Type} (env : Nat → StoreDef V)
    (k fuel fuel2 : Nat) (st st3 : RegState V)
    (hp : (probe st k).1 = none) (hf : (env k).fails = true)
    (hrun : runCalls (getOrInit env fuel) (env k).calls
      (bumpCount k (probe st k).2) = (none, st3))
    (hpend : lookupA st3.reg k = some none) :
    getOrInit env (fuel + 1) k st = (Res.panicked, st3) ∧
    countOf st3 k + 1 ≤ countOf (getOrInit env (fuel2 + 1) k st3).2 k := by
  constructor
  · rcases hE : lookupA st.reg k with _ | e
    · have hprobe : probe st k = (none, { st with reg := setA st.reg k none }) := by
        simp [probe, hE]
      rw [hprobe] at hrun
      rw [getOrInit_absent env fuel k st hE]
      exact construct_fail (env k) (getOrInit env fuel) k _ st3 hrun hf
    · cases e with
      | none =>
        have hprobe : probe st k = (none, st) := by simp [probe, hE]
        rw [hprobe] at hrun
        rw [getOrInit_pending env fuel k st hE]
        exact construct_fail (env k) (getOrInit env fuel) k _ st3 hrun hf
      | some c =>
        have hprobe : (probe st k).1 = some c := by simp [probe, hE]
        rw [hprobe] at hp
        exact Option.noConfusion hp
  · exact countOf_bump_get env fuel2 k st3 (Or.inr hpend)

theorem C9_failed_new_retries_witness :
    getOrInit envFailSolo 1 0 (RegState.empty : RegState Nat) =
      (Res.panicked, ⟨[(0, none)], [], [(0, 1)]⟩) ∧
    countOf (⟨[(0, none)], [], [(0, 1)]⟩ : RegState Nat) 0 + 1 ≤
      countOf (getOrInit envFailSolo 1 0
        (⟨[(0, none)], [], [(0, 1)]⟩ : RegState Nat)).2 0 :=
  ⟨(C9_failed_new_retries envFailSolo 0 0 0 RegState.empty
      (⟨[(0, none)], [], [(0, 1)]⟩ : RegState Nat) rfl rfl rfl rfl).1,
    (C9_failed_new_retries envFailSolo 0 0 0 RegState.empty
      (⟨[(0, none)], [], [(0, 1)]⟩ : RegState Nat) rfl rfl rfl rfl).2⟩

end Anyflux
